import Mathlib

/-!
Verification of the cdn-server repository (Node.js edge/origin CDN) against its
natural-language specification.  The JavaScript source is shallowly embedded:
pure functions become Lean functions, the mutable LRU cache becomes explicit
state passing over a recency-ordered association list, and external
collaborators (the HMAC primitive from node crypto, zlib compressors, the
Date parser, axios fetches) become function parameters.  All definitions are
executable.
-/

namespace CdnServer

/-! ## JavaScript primitives -/

/-- JS truthiness of an optional string value (query parameter or header):
`undefined` and the empty string are falsy, every other string is truthy. -/
def jsTruthy : Option String → Bool
  | none => false
  | some s => s ≠ ""

/-- Does the character list start with the pattern?  (helper for JS
`String.prototype.startsWith` / `includes` on char lists). -/
def startsWithL : List Char → List Char → Bool
  | _, [] => true
  | [], _ :: _ => false
  | a :: as, b :: bs => a == b && startsWithL as bs

/-- Does the character list contain the pattern as a contiguous substring? -/
def includesL (pat : List Char) : List Char → Bool
  | [] => startsWithL [] pat
  | c :: rest => startsWithL (c :: rest) pat || includesL pat rest

/-- JS `String.prototype.includes(pat)`. -/
def jsIncludes (s pat : String) : Bool :=
  includesL pat.data s.data

/-- JS `String.prototype.startsWith(pat)`. -/
def jsStartsWith (s pat : String) : Bool :=
  startsWithL s.data pat.data

/-- Remove the first occurrence of the pattern from the character list
(JS `String.prototype.replace(/pat/, "")` for a plain pattern). -/
def removeFirstL (pat : List Char) : List Char → List Char
  | [] => []
  | c :: rest =>
    if startsWithL (c :: rest) pat then (c :: rest).drop pat.length
    else c :: removeFirstL pat rest

/-- JS `s.replace(/pat/, "")`: remove the first occurrence of `pat`. -/
def removeFirst (s pat : String) : String :=
  ⟨removeFirstL pat.data s.data⟩

/-- Split a character list on a separator character; the empty list yields
one empty field, like JS `split`. -/
def splitOnCharL (sep : Char) : List Char → List (List Char)
  | [] => [[]]
  | c :: rest =>
    let r := splitOnCharL sep rest
    if c == sep then [] :: r
    else
      match r with
      | [] => [[c]]
      | h :: t => (c :: h) :: t

/-- JS `String.prototype.split(sep)` for a one-character separator. -/
def jsSplit (s : String) (sep : Char) : List String :=
  (splitOnCharL sep s.data).map (fun cs => ⟨cs⟩)

/-- Longest leading run of decimal digits. -/
def takeDigits : List Char → List Char
  | [] => []
  | c :: rest => if c.isDigit then c :: takeDigits rest else []

/-- Decimal value of a digit list. -/
def digitsToNat (ds : List Char) : Nat :=
  ds.foldl (fun n c => n * 10 + (c.toNat - 48)) 0

/-- JS `parseInt(s, 10)`: skip leading whitespace, read an optional sign and
the longest digit run; `none` models `NaN` (no digits found). -/
def jsParseInt (s : String) : Option Int :=
  let cs := s.data.dropWhile (fun c => c == ' ' || c == '\t' || c == '\n' || c == '\r')
  let signed : Int × List Char :=
    match cs with
    | '-' :: rest => (-1, rest)
    | '+' :: rest => (1, rest)
    | _ => (1, cs)
  let ds := takeDigits signed.2
  if ds.isEmpty then none else some (signed.1 * digitsToNat ds)

/-- Render a JS number that may be `NaN` (template-literal interpolation). -/
def numStr : Option Int → String
  | none => "NaN"
  | some n => toString n

/-- NaN-propagating addition on JS numbers. -/
def optAdd : Option Int → Option Int → Option Int
  | some a, some b => some (a + b)
  | _, _ => none

/-- NaN-propagating subtraction on JS numbers. -/
def optSub : Option Int → Option Int → Option Int
  | some a, some b => some (a - b)
  | _, _ => none

/-- NaN-rejecting comparison: `a <= b` in JS is false when either side is NaN. -/
def nanLe : Option Int → Option Int → Bool
  | some a, some b => a ≤ b
  | _, _ => false

/-- Index coercion of `Buffer.prototype.slice` (Uint8Array `subarray`):
NaN becomes 0, negative indices count from the end (clamped at 0), and
indices beyond the length are clamped to the length. -/
def sliceIndex (len : Nat) : Option Int → Nat
  | none => 0
  | some v => if v < 0 then ((len : Int) + v).toNat else min v.toNat len

/-- `Buffer.prototype.slice(s, e)` on a byte list: clamped half-open slice,
empty when the clamped end does not exceed the clamped start. -/
def bufSlice (content : List Nat) (s e : Option Int) : List Nat :=
  (content.take (sliceIndex content.length e)).drop (sliceIndex content.length s)

/-! ## src/shared/crypto.js

The HMAC-SHA256 hex digest computed by node `crypto.createHmac` over the
configured secret is an external primitive; it is passed in as a function
`hmacHex : String → String` from signing input to hex digest.  The wall
clock `Math.floor(Date.now() / 1000)` is passed in as `now`. -/

/-- Result of `generateSignedUrl` (src/shared/crypto.js lines 10-25). -/
structure SignedUrl where
  fileId : String
  expires : Int
  signature : String
  deriving Repr, DecidableEq

/-- `generateSignedUrl` (src/shared/crypto.js lines 10-25): the expiry is
`now + expiresIn` and the signature is the HMAC hex digest of
`fileId ++ ":" ++ expires`. -/
def generateSignedUrl (hmacHex : String → String) (now : Int)
    (fileId : String) (expiresIn : Int) : SignedUrl :=
  let expires := now + expiresIn
  let data := fileId ++ ":" ++ toString expires
  { fileId := fileId, expires := expires, signature := hmacHex data }

/-- `verifySignedUrl` (src/shared/crypto.js lines 34-49): false when
`now > expires`, otherwise true exactly when the supplied signature equals
the recomputed HMAC hex digest of `fileId ++ ":" ++ expires`.  The function
is total: it never throws. -/
def verifySignedUrl (hmacHex : String → String) (now : Int)
    (fileId : String) (expires : Int) (signature : String) : Bool :=
  if now > expires then false
  else
    let data := fileId ++ ":" ++ toString expires
    signature == hmacHex data

/-! ## The LRU cache and src/edge/cache.js

src/edge/cache.js delegates to the `lru-cache` npm package, whose source is
not part of this repository. -/

/-- Modelled from the spec: the `LRUCache` instance created by `initCache`
(src/edge/cache.js lines 9-20) comes from the external `lru-cache` package;
spec section 4.1 describes its contract.  We model it as a bounded map whose
entries are kept in a list ordered most-recently-accessed first: `get` on a
present key moves its entry to the front, `set` inserts or overwrites at the
front and, when a new key arrives at capacity, evicts the entry at the back
(the least-recently-accessed one).  TTL expiry only shrinks the set of live
entries and is orthogonal to the size and eviction claims, so it is not
modelled. -/
structure LRU (α : Type) where
  maxSize : Nat
  entries : List (String × α)
  deriving Repr, DecidableEq

/-- Lookup without recency refresh (for stating absence of a key). -/
def lruFind {α : Type} (c : LRU α) (k : String) : Option α :=
  (c.entries.find? (fun e => e.1 == k)).map (fun e => e.2)

/-- `LRUCache.get`: returns the value of a present key and moves its entry
to the front of the recency order. -/
def lruGet {α : Type} (c : LRU α) (k : String) : Option α × LRU α :=
  match c.entries.find? (fun e => e.1 == k) with
  | none => (none, c)
  | some e =>
    (some e.2, { c with entries := e :: c.entries.filter (fun x => !(x.1 == k)) })

/-- `LRUCache.set`: overwrite a present key (refreshing recency), or insert
a new key at the front, evicting the back (least-recently-accessed) entry
when the cache is at capacity. -/
def lruSet {α : Type} (c : LRU α) (k : String) (v : α) : LRU α :=
  let without := c.entries.filter (fun x => !(x.1 == k))
  if without.length < c.entries.length then
    { c with entries := (k, v) :: without }
  else if c.maxSize ≤ c.entries.length then
    { c with entries := (k, v) :: without.dropLast }
  else
    { c with entries := (k, v) :: without }

/-- `LRUCache.delete`: remove a key; idempotent. -/
def lruDelete {α : Type} (c : LRU α) (k : String) : LRU α :=
  { c with entries := c.entries.filter (fun x => !(x.1 == k)) }

/-- `initCache` (src/edge/cache.js lines 9-20): the module-level
`memoryCache` is `null` unless `config.cache.memoryEnabled` is set, in which
case a fresh LRU cache bounded by `config.cache.maxSize` is created. -/
def initCache (α : Type) (memoryEnabled : Bool) (maxSize : Nat) : Option (LRU α) :=
  if memoryEnabled then some { maxSize := maxSize, entries := [] } else none

/-- `getFromCache` (src/edge/cache.js lines 27-30): `null` when the cache is
disabled, otherwise an LRU get.  The updated recency state is returned
explicitly (the JS cache mutates in place). -/
def getFromCache {α : Type} : Option (LRU α) → String → Option α × Option (LRU α)
  | none, _ => (none, none)
  | some c, k => let r := lruGet c k; (r.1, some r.2)

/-- `setInCache` (src/edge/cache.js lines 37-40): a no-op when the cache is
disabled, otherwise an LRU set. -/
def setInCache {α : Type} : Option (LRU α) → String → α → Option (LRU α)
  | none, _, _ => none
  | some c, k, v => some (lruSet c k v)

/-- `deleteFromCache` (src/edge/cache.js lines 46-49). -/
def deleteFromCache {α : Type} : Option (LRU α) → String → Option (LRU α)
  | none, _ => none
  | some c, k => some (lruDelete c k)

/-- `clearCache` (src/edge/cache.js lines 54-57). -/
def clearCache {α : Type} : Option (LRU α) → Option (LRU α)
  | none => none
  | some c => some { c with entries := [] }

/-- `generateCacheKey` (src/edge/cache.js lines 81-83):
the key is `filename:vversion`. -/
def generateCacheKey (filename : String) (version : Nat) : String :=
  filename ++ ":v" ++ toString version

/-- `generateCacheKey` as called with the version argument omitted; the JS
default parameter makes the version 1. -/
def generateCacheKeyDefault (filename : String) : String :=
  generateCacheKey filename 1

/-- The cache key the edge route builds for a request
(src/edge/routes/cdn.js line 32): `generateCacheKey(file_id)` with the
version omitted, hence always the version-1 key. -/
def edgeLookupKey (fileId : String) : String :=
  generateCacheKeyDefault fileId

/-- Number of entries currently stored (0 for a disabled cache). -/
def cacheSize {α : Type} : Option (LRU α) → Nat
  | none => 0
  | some c => c.entries.length

/-- One client-visible cache operation. -/
inductive CacheOp (α : Type) where
  | get (k : String)
  | set (k : String) (v : α)
  | del (k : String)
  deriving Repr

/-- Apply one operation through the src/edge/cache.js wrappers. -/
def applyOp {α : Type} (c : Option (LRU α)) : CacheOp α → Option (LRU α)
  | .get k => (getFromCache c k).2
  | .set k v => setInCache c k v
  | .del k => deleteFromCache c k

/-- Apply a sequence of operations. -/
def applyOps {α : Type} (c : Option (LRU α)) (ops : List (CacheOp α)) : Option (LRU α) :=
  ops.foldl applyOp c

/-! ## src/edge/routes/cdn.js

External collaborators are parameters: `parseDate` models
`new Date(s).getTime()` (`none` = NaN), `compressBr` and `compressGz` model
`zlib.brotliCompress` / `zlib.gzip` on byte lists, and the origin fetches
are modelled by their outcomes. -/

/-- The metadata record the route builds from the origin download response
headers (src/edge/routes/cdn.js lines 72-78).  `etag` and `lastModified`
are absent when the origin response lacked those headers; `cacheControl`
is defaulted by the route itself, so it is always a string. -/
structure Metadata where
  contentType : String
  etag : Option String
  lastModified : Option String
  contentLength : Option String
  cacheControl : String
  deriving Repr, DecidableEq

/-- A cache entry as stored by the route: content bytes plus metadata
(src/edge/routes/cdn.js line 81). -/
structure CacheEntry where
  content : List Nat
  metadata : Metadata
  deriving Repr, DecidableEq

/-- The request headers `serveContent` inspects, each absent or a string. -/
structure Request where
  ifNoneMatch : Option String
  ifModifiedSince : Option String
  range : Option String
  acceptEncoding : Option String
  deriving Repr, DecidableEq

/-- A response body: empty (`send()` with no argument), raw or compressed
bytes, or a structured JSON error object. -/
inductive Body where
  | empty
  | bytes (b : List Nat)
  | jsonError (msg : String)
  deriving Repr, DecidableEq

/-- An HTTP response: status code, headers in the order they were set
(numeric JS header values rendered as strings), and a body. -/
structure Response where
  status : Nat
  headers : List (String × String)
  body : Body
  deriving Repr, DecidableEq

/-- First header with the given name, if any. -/
def findHeader (r : Response) (name : String) : Option String :=
  (r.headers.find? (fun h => h.1 == name)).map (fun h => h.2)

/-- `config.compression` (src/shared/config.js lines 37-40); both flags
default to true. -/
structure CompressionConfig where
  gzip : Bool
  brotli : Bool
  deriving Repr, DecidableEq

/-- `isCompressibleType` (src/edge/routes/cdn.js lines 178-189): the content
type must start with one of the fixed allow-list entries. -/
def isCompressibleType (contentType : String) : Bool :=
  let compressibleTypes := ["text/", "application/javascript", "application/json",
    "application/xml", "application/x-javascript", "image/svg+xml"]
  compressibleTypes.any (fun t => jsStartsWith contentType t)

/-- The headers `serveContent` sets before any branching
(src/edge/routes/cdn.js lines 106-117): `Content-Type`, `Cache-Control`
and `X-Cache: HIT` unconditionally, then `ETag` and `Last-Modified` when
the metadata carries them. -/
def baseHeaders (m : Metadata) : List (String × String) :=
  [("Content-Type", m.contentType), ("Cache-Control", m.cacheControl), ("X-Cache", "HIT")]
  ++ (if jsTruthy m.etag then [("ETag", m.etag.getD "")] else [])
  ++ (if jsTruthy m.lastModified then [("Last-Modified", m.lastModified.getD "")] else [])

/-- The range-header parsing of `serveContent` (src/edge/routes/cdn.js
lines 138-140): strip the first `bytes=`, split on `-`, `parseInt` the
start part, and `parseInt` the end part when it is present and non-empty,
defaulting it to the content length minus one otherwise.  `none` components
model NaN. -/
def parseRange (range : String) (len : Nat) : Option Int × Option Int :=
  let parts := jsSplit (removeFirst range "bytes=") '-'
  let start := jsParseInt (parts.getD 0 "")
  let endv := if parts.getD 1 "" ≠ "" then jsParseInt (parts.getD 1 "")
    else some ((len : Int) - 1)
  (start, endv)

/-- `serveContent` (src/edge/routes/cdn.js lines 103-173), translated
clause by clause:
1. set `Content-Type`, `Cache-Control`, `X-Cache: HIT` unconditionally,
   then `ETag` / `Last-Modified` when known;
2. `If-None-Match` equal to the entry ETag, or `If-Modified-Since` parsing
   to a time at or after the parsed `Last-Modified`, gives a bodyless 304
   (NaN date comparisons are false);
3. a truthy `Range` header is split after removing the first `bytes=`,
   `parseInt` applied to both parts (the end defaulting to length - 1 when
   its part is missing or empty), and a 206 is sent with unclamped header
   arithmetic and the `Buffer.slice` of the content;
4. otherwise brotli, then gzip, compression is applied when the content
   type is compressible, the config flag is on and `Accept-Encoding`
   contains the token; else the identity body is sent. -/
def serveContent (cfg : CompressionConfig) (parseDate : String → Option Int)
    (compressBr compressGz : List Nat → List Nat)
    (entry : CacheEntry) (req : Request) : Response :=
  let content := entry.content
  let m := entry.metadata
  let hdrs := baseHeaders m
  if jsTruthy req.ifNoneMatch && jsTruthy m.etag && req.ifNoneMatch == m.etag then
    { status := 304, headers := hdrs, body := .empty }
  else if jsTruthy req.ifModifiedSince && jsTruthy m.lastModified
      && nanLe (parseDate (m.lastModified.getD "")) (parseDate (req.ifModifiedSince.getD "")) then
    { status := 304, headers := hdrs, body := .empty }
  else if jsTruthy req.range then
    let parsed := parseRange (req.range.getD "") content.length
    let start := parsed.1
    let endv := parsed.2
    let chunkSize := optAdd (optSub endv start) (some 1)
    { status := 206,
      headers := hdrs ++
        [("Content-Range", "bytes " ++ numStr start ++ "-" ++ numStr endv ++ "/"
            ++ toString content.length),
         ("Accept-Ranges", "bytes"),
         ("Content-Length", numStr chunkSize)],
      body := .bytes (bufSlice content start (optAdd endv (some 1))) }
  else
    let ae := req.acceptEncoding.getD ""
    let isComp := isCompressibleType m.contentType
    if isComp && cfg.brotli && jsIncludes ae "br" then
      let compressed := compressBr content
      { status := 200,
        headers := hdrs ++ [("Content-Encoding", "br"),
          ("Content-Length", toString compressed.length), ("Vary", "Accept-Encoding")],
        body := .bytes compressed }
    else if isComp && cfg.gzip && jsIncludes ae "gzip" then
      let compressed := compressGz content
      { status := 200,
        headers := hdrs ++ [("Content-Encoding", "gzip"),
          ("Content-Length", toString compressed.length), ("Vary", "Accept-Encoding")],
        body := .bytes compressed }
    else
      { status := 200, headers := hdrs ++ [("Content-Length", toString content.length)],
        body := .bytes content }

/-- Outcome of the origin content fetch (src/edge/routes/cdn.js lines
61-65): axios resolves only for statuses 200 and 304 (`validateStatus`);
any other HTTP status rejects carrying that status, and a network error or
timeout rejects with no response attached. -/
inductive FetchOutcome where
  | ok (entry : CacheEntry)
  | notModified
  | httpError (status : Nat)
  | networkError
  deriving Repr

/-- The signature-check prefix of the route (src/edge/routes/cdn.js lines
19-29): verification runs only when both the `expires` and `signature`
query parameters are truthy, and a failed verification terminates with a
403 JSON error.  `verify` models
`verifySignedUrl(file_id, parseInt(expires), signature)`; it receives the
file id, the parsed expiry (`none` = NaN) and the signature string. -/
def authCheck (verify : String → Option Int → String → Bool)
    (fileId : String) (expires signature : Option String) : Option Response :=
  if jsTruthy expires && jsTruthy signature then
    if verify fileId (jsParseInt (expires.getD "")) (signature.getD "") then none
    else
      some { status := 403, headers := [],
             body := .jsonError "Invalid or expired signature" }
  else none

/-- Result of one request through the route: the response and the cache
state afterwards. -/
structure RouteResult where
  response : Response
  cache : Option (LRU CacheEntry)
  deriving Repr

/-- The `GET /cdn/:file_id` handler (src/edge/routes/cdn.js lines 16-97):
signature check, cache lookup under the default-version key, and on a miss
the origin fetch — the download identifier comes from the metadata fetch
when that succeeded (`metaResult = some id`) and is the caller-supplied
`fileId` otherwise; a 200 stores the entry and serves it, a 304 is relayed
bodyless, a rejected fetch maps status 404 to a 404 JSON error and
everything else to a 502 JSON error. -/
def cdnGet (cfg : CompressionConfig) (parseDate : String → Option Int)
    (compressBr compressGz : List Nat → List Nat)
    (verify : String → Option Int → String → Bool)
    (metaResult : Option String) (fetchContent : String → FetchOutcome)
    (fileId : String) (expires signature : Option String)
    (req : Request) (cache : Option (LRU CacheEntry)) : RouteResult :=
  match authCheck verify fileId expires signature with
  | some resp => { response := resp, cache := cache }
  | none =>
    let cacheKey := generateCacheKeyDefault fileId
    let looked := getFromCache cache cacheKey
    match looked.1 with
    | some entry =>
      { response := serveContent cfg parseDate compressBr compressGz entry req,
        cache := looked.2 }
    | none =>
      let downloadId := match metaResult with
        | some mid => mid
        | none => fileId
      match fetchContent downloadId with
      | .ok entry =>
        { response := serveContent cfg parseDate compressBr compressGz entry req,
          cache := setInCache looked.2 cacheKey entry }
      | .notModified =>
        { response := { status := 304, headers := [], body := .empty }, cache := looked.2 }
      | .httpError s =>
        if s == 404 then
          { response := { status := 404, headers := [], body := .jsonError "File not found" },
            cache := looked.2 }
        else
          { response := { status := 502, headers := [],
                          body := .jsonError "Failed to fetch from origin" },
            cache := looked.2 }
      | .networkError =>
        { response := { status := 502, headers := [],
                        body := .jsonError "Failed to fetch from origin" },
          cache := looked.2 }

/-! ## Concrete fixtures for witnesses and counterexamples -/

/-- A concrete entry with an ETag, for exercising the conditional branch. -/
def entryWithEtag : CacheEntry :=
  { content := [1, 2],
    metadata := { contentType := "text/css", etag := some "\"e1\"",
                  lastModified := none, contentLength := none,
                  cacheControl := "public" } }

/-- A concrete entry with a Last-Modified value, for the time branch. -/
def entryWithLastModified : CacheEntry :=
  { content := [1, 2],
    metadata := { contentType := "text/css", etag := none,
                  lastModified := some "sun", contentLength := none,
                  cacheControl := "public" } }

/-- A concrete date parser mapping the two date strings used above. -/
def twoDateParser (s : String) : Option Int :=
  if s = "sun" then some 100 else some 200

/-- A concrete entry carrying both validators, for the case of a present
but non-matching If-None-Match alongside a satisfying If-Modified-Since. -/
def entryWithBothValidators : CacheEntry :=
  { content := [1, 2],
    metadata := { contentType := "text/css", etag := some "\"e1\"",
                  lastModified := some "sun", contentLength := none,
                  cacheControl := "public" } }

/-- A concrete ten-byte entity, for exercising range requests. -/
def tenByteEntry : CacheEntry :=
  { content := [0, 1, 2, 3, 4, 5, 6, 7, 8, 9],
    metadata := { contentType := "video/mp4", etag := none, lastModified := none,
                  contentLength := none, cacheControl := "public" } }

/-- The cache invariant carried through operation sequences: a present
cache has the expected capacity and is within it. -/
def cacheInv {α : Type} (mx : Nat) : Option (LRU α) → Prop
  | none => True
  | some c => c.maxSize = mx ∧ c.entries.length ≤ mx

/-! ## Shared lemmas -/

/-- Looking for a key in a list from which every entry with that key was
filtered out finds nothing. -/
theorem find_filter_none {α : Type} (l : List (String × α)) (k : String) :
    (l.filter (fun x => !(x.1 == k))).find? (fun e => e.1 == k) = none := by
  induction l with
  | nil => simp
  | cons a as ih =>
    by_cases h : a.1 == k
    · simp [List.filter_cons, h, ih]
    · simp [List.filter_cons, h, List.find?_cons, ih]

/-- The fileId field of a signed token. -/
theorem generateSignedUrl_fileId (hmacHex : String → String) (now : Int)
    (fileId : String) (ttl : Int) :
    (generateSignedUrl hmacHex now fileId ttl).fileId = fileId := rfl

/-- The expiry field of a signed token. -/
theorem generateSignedUrl_expires (hmacHex : String → String) (now : Int)
    (fileId : String) (ttl : Int) :
    (generateSignedUrl hmacHex now fileId ttl).expires = now + ttl := rfl

/-- The signature field of a signed token. -/
theorem generateSignedUrl_signature (hmacHex : String → String) (now : Int)
    (fileId : String) (ttl : Int) :
    (generateSignedUrl hmacHex now fileId ttl).signature
      = hmacHex (fileId ++ ":" ++ toString (now + ttl)) := rfl

/-- Verification fails whenever the supplied signature differs from the
recomputed digest, whatever the clock says. -/
theorem verify_false_of_ne (hmacHex : String → String) (now : Int)
    (fileId : String) (expires : Int) (signature : String)
    (h : signature ≠ hmacHex (fileId ++ ":" ++ toString expires)) :
    verifySignedUrl hmacHex now fileId expires signature = false := by
  unfold verifySignedUrl
  split
  · rfl
  · simpa using h

/-- Finding a key makes the key-removing filter strictly shorter. -/
theorem length_filter_lt_of_find {α : Type} {l : List (String × α)} {k : String}
    {e : String × α} (h : l.find? (fun x => x.1 == k) = some e) :
    (l.filter (fun x => !(x.1 == k))).length < l.length := by
  induction l with
  | nil => simp at h
  | cons a as ih =>
    by_cases ha : a.1 == k
    · simp only [List.filter_cons, ha, Bool.not_true, List.length_cons]
      exact Nat.lt_succ_of_le (List.length_filter_le _ _)
    · rw [List.find?_cons] at h
      simp only [ha] at h
      simp only [List.filter_cons, ha, Bool.not_false, List.length_cons, if_true]
      exact Nat.succ_lt_succ (ih h)

/-- An LRU get never changes the capacity. -/
theorem lruGet_maxSize {α : Type} (c : LRU α) (k : String) :
    ((lruGet c k).2).maxSize = c.maxSize := by
  unfold lruGet
  cases c.entries.find? (fun e => e.1 == k) <;> rfl

/-- An LRU get never grows the store. -/
theorem lruGet_length_le {α : Type} (c : LRU α) (k : String) :
    ((lruGet c k).2).entries.length ≤ c.entries.length := by
  unfold lruGet
  cases hf : c.entries.find? (fun e => e.1 == k) with
  | none => exact Nat.le_refl _
  | some e =>
    simp only [List.length_cons]
    exact length_filter_lt_of_find hf

/-- An LRU set never changes the capacity. -/
theorem lruSet_maxSize {α : Type} (c : LRU α) (k : String) (v : α) :
    (lruSet c k v).maxSize = c.maxSize := by
  simp only [lruSet]
  split
  · rfl
  · split <;> rfl

/-- An LRU set keeps the store within a positive capacity. -/
theorem lruSet_length_le {α : Type} (c : LRU α) (k : String) (v : α)
    (hpos : 0 < c.maxSize) (hlen : c.entries.length ≤ c.maxSize) :
    (lruSet c k v).entries.length ≤ c.maxSize := by
  have hwle : (c.entries.filter (fun x => !(x.1 == k))).length ≤ c.entries.length :=
    List.length_filter_le _ _
  simp only [lruSet]
  by_cases h1 : (c.entries.filter (fun x => !(x.1 == k))).length < c.entries.length
  · rw [if_pos h1]
    simp only [List.length_cons]
    omega
  · rw [if_neg h1]
    by_cases h2 : c.maxSize ≤ c.entries.length
    · rw [if_pos h2]
      simp only [List.length_cons, List.length_dropLast]
      omega
    · rw [if_neg h2]
      simp only [List.length_cons]
      omega

/-- An LRU delete never grows the store. -/
theorem lruDelete_length_le {α : Type} (c : LRU α) (k : String) :
    (lruDelete c k).entries.length ≤ c.entries.length :=
  List.length_filter_le _ _

/-- Every single cache operation preserves the invariant. -/
theorem applyOp_inv {α : Type} {mx : Nat} (hpos : 0 < mx) (c : Option (LRU α))
    (op : CacheOp α) (h : cacheInv mx c) : cacheInv mx (applyOp c op) := by
  cases c with
  | none =>
    cases op <;> simp [applyOp, getFromCache, setInCache, deleteFromCache, cacheInv]
  | some lru =>
    obtain ⟨hmx, hlen⟩ := h
    cases op with
    | get k =>
      exact ⟨by rw [lruGet_maxSize, hmx], le_trans (lruGet_length_le lru k) hlen⟩
    | set k v =>
      refine ⟨by rw [lruSet_maxSize, hmx], ?_⟩
      have := lruSet_length_le lru k v (by omega) (by omega)
      omega
    | del k =>
      exact ⟨hmx, le_trans (lruDelete_length_le lru k) hlen⟩

/-- The invariant holds after any sequence of cache operations. -/
theorem applyOps_inv {α : Type} {mx : Nat} (hpos : 0 < mx) (ops : List (CacheOp α))
    (c : Option (LRU α)) (h : cacheInv mx c) : cacheInv mx (applyOps c ops) := by
  induction ops generalizing c with
  | nil => exact h
  | cons op rest ih => exact ih _ (applyOp_inv hpos c op h)

/-- The always-set headers never include a Content-Encoding entry. -/
theorem baseHeaders_no_contentEncoding (m : Metadata) :
    (baseHeaders m).find? (fun h => h.1 == "Content-Encoding") = none := by
  unfold baseHeaders
  by_cases he : jsTruthy m.etag <;> by_cases hl : jsTruthy m.lastModified <;>
    simp [he, hl, List.find?_cons]

/-- A cache lookup that misses leaves the cache state unchanged. -/
theorem getFromCache_miss {α : Type} (c : Option (LRU α)) (k : String)
    (h : (getFromCache c k).1 = none) : (getFromCache c k).2 = c := by
  cases c with
  | none => rfl
  | some lru =>
    simp only [getFromCache] at h ⊢
    unfold lruGet at h ⊢
    cases hf : lru.entries.find? (fun e => e.1 == k) with
    | none => rfl
    | some e =>
      rw [hf] at h
      simp at h

/-! ## Claims -/

/-- C1, counterexample: the claim says the edge request after a purge looks
up the cache under the key built from the new version.  It does not: the
route (src/edge/routes/cdn.js line 32) calls `generateCacheKey` with the
version omitted, so the lookup key for `a.jpg` is always `a.jpg:v1`, which
differs from the new-version key `a.jpg:v2` the claim prescribes after the
purge bumps the version from 1 to 2. -/
theorem C1_counterexample :
    edgeLookupKey "a.jpg" = "a.jpg:v1" ∧
    generateCacheKey "a.jpg" 2 = "a.jpg:v2" ∧
    edgeLookupKey "a.jpg" ≠ generateCacheKey "a.jpg" 2 := by
  refine ⟨rfl, rfl, ?_⟩
  decide

/-- C1, amended: the edge always builds its lookup key with the default
version 1, never the bumped version; the next request after a purge is
nonetheless a fresh cache miss, because the purge notification deletes
exactly that version-1 key from the edge cache
(src/edge/routes/purge.js). -/
theorem C1_default_version_key_purge_miss (c : LRU CacheEntry) (f : String) :
    edgeLookupKey f = generateCacheKey f 1 ∧
    (getFromCache (deleteFromCache (some c) (edgeLookupKey f)) (edgeLookupKey f)).1 = none := by
  refine ⟨rfl, ?_⟩
  have hf := find_filter_none c.entries (edgeLookupKey f)
  simp [getFromCache, deleteFromCache, lruDelete, lruGet, hf]

/-- C4: starting from an enabled cache with positive capacity, after any
sequence of get, set and delete operations the number of stored entries
never exceeds maxSize; and a set of an absent key on a cache at capacity
evicts exactly the back entry of the recency list, which is the
least-recently-accessed one (both get and set move the touched entry to
the front).  The reason field of the results file records that the LRU
store itself is modelled from the spec, the lru-cache package not being
part of the repository source. -/
theorem C4_size_bound_and_lru_eviction (α : Type) (maxSize : Nat) (hpos : 0 < maxSize)
    (ops : List (CacheOp α)) :
    cacheSize (applyOps (initCache α true maxSize) ops) ≤ maxSize ∧
    (∀ (c : LRU α) (k : String) (v : α), lruFind c k = none →
      c.maxSize ≤ c.entries.length →
      (lruSet c k v).entries = (k, v) :: c.entries.dropLast) := by
  constructor
  · have hinit : cacheInv maxSize (initCache α true maxSize) := by
      simp [initCache, cacheInv]
    have h := applyOps_inv hpos ops (initCache α true maxSize) hinit
    cases hres : applyOps (initCache α true maxSize) ops with
    | none => simp [cacheSize]
    | some c =>
      rw [hres] at h
      exact h.2
  · intro c k v hfind hcap
    have hfnone : c.entries.find? (fun e => e.1 == k) = none := by
      unfold lruFind at hfind
      cases hf : c.entries.find? (fun e => e.1 == k) with
      | none => rfl
      | some e => rw [hf] at hfind; simp at hfind
    have hall : ∀ x ∈ c.entries, (x.1 == k) = false := by
      intro x hx
      have := List.find?_eq_none.mp hfnone x hx
      simpa using this
    have hfilter : c.entries.filter (fun x => !(x.1 == k)) = c.entries := by
      rw [List.filter_eq_self]
      intro a ha
      simp [hall a ha]
    simp only [lruSet, hfilter]
    rw [if_neg (lt_irrefl _), if_pos hcap]

/-- C4 witness: capacity 2, four operations, and a concrete eviction of the
back entry. -/
theorem C4_size_bound_and_lru_eviction_witness :
    cacheSize (applyOps (initCache Nat true 2)
      [CacheOp.set "a" 1, CacheOp.set "b" 2, CacheOp.get "a", CacheOp.set "c" 3]) ≤ 2 ∧
    (lruSet (⟨1, [("x", 5)]⟩ : LRU Nat) "y" 7).entries = [("y", 7)] := by
  have h := C4_size_bound_and_lru_eviction Nat 2 (by decide)
    [CacheOp.set "a" 1, CacheOp.set "b" 2, CacheOp.get "a", CacheOp.set "c" 3]
  refine ⟨h.1, ?_⟩
  have h2 := h.2 ⟨1, [("x", 5)]⟩ "y" 7 (by decide) (by decide)
  exact h2.trans (by decide)

/-- C2: `verifySignedUrl` is a total function (it never throws); it returns
false whenever `now > expires` regardless of the signature, and for
`now ≤ expires` it returns true exactly when the signature equals the
hex HMAC-SHA256 digest (the external `hmacHex` primitive) of
`fileId ++ ":" ++ expires`. -/
theorem C2_verify_expiry_then_hmac (hmacHex : String → String) (now : Int)
    (fileId : String) (expires : Int) (signature : String) :
    (now > expires → verifySignedUrl hmacHex now fileId expires signature = false) ∧
    (now ≤ expires →
      (verifySignedUrl hmacHex now fileId expires signature = true ↔
        signature = hmacHex (fileId ++ ":" ++ toString expires))) := by
  constructor
  · intro h
    simp [verifySignedUrl, h]
  · intro h
    have hng : ¬ now > expires := by omega
    simp [verifySignedUrl, hng]

/-- C2 witness at concrete inputs. -/
theorem C2_verify_expiry_then_hmac_witness :
    verifySignedUrl (fun s => s) 5 "f" 3 "x" = false ∧
    (verifySignedUrl (fun s => s) 5 "f" 9 "f:9" = true ↔
      "f:9" = (fun s : String => s) ("f" ++ ":" ++ toString (9 : Int))) :=
  ⟨(C2_verify_expiry_then_hmac (fun s => s) 5 "f" 3 "x").1 (by decide),
   (C2_verify_expiry_then_hmac (fun s => s) 5 "f" 9 "f:9").2 (by decide)⟩

/-- C3: signing and then verifying at the same clock succeeds for every
positive ttl; and a tampered verification input flips the result to false:
unconditionally so for a changed signature, and for a changed fileId or
expires under the collision-freedom hypothesis that the HMAC digest of the
tampered signing string differs from the original signature (true of
HMAC-SHA256 except for digest collisions, which cannot exist in a faithful
model of a concrete hash). -/
theorem C3_roundtrip_and_tamper (hmacHex : String → String) (now : Int)
    (fileId : String) (ttl : Int) (httl : 0 < ttl) :
    (verifySignedUrl hmacHex now (generateSignedUrl hmacHex now fileId ttl).fileId
      (generateSignedUrl hmacHex now fileId ttl).expires
      (generateSignedUrl hmacHex now fileId ttl).signature = true) ∧
    (∀ fileId2 : String,
      hmacHex (fileId2 ++ ":" ++ toString (generateSignedUrl hmacHex now fileId ttl).expires)
          ≠ (generateSignedUrl hmacHex now fileId ttl).signature →
      verifySignedUrl hmacHex now fileId2 (generateSignedUrl hmacHex now fileId ttl).expires
        (generateSignedUrl hmacHex now fileId ttl).signature = false) ∧
    (∀ expires2 : Int,
      hmacHex (fileId ++ ":" ++ toString expires2)
          ≠ (generateSignedUrl hmacHex now fileId ttl).signature →
      verifySignedUrl hmacHex now fileId expires2
        (generateSignedUrl hmacHex now fileId ttl).signature = false) ∧
    (∀ signature2 : String,
      signature2 ≠ (generateSignedUrl hmacHex now fileId ttl).signature →
      verifySignedUrl hmacHex now fileId
        (generateSignedUrl hmacHex now fileId ttl).expires signature2 = false) := by
  have hexp : ¬ now > now + ttl := by omega
  refine ⟨?_, ?_, ?_, ?_⟩
  · rw [generateSignedUrl_fileId, generateSignedUrl_expires, generateSignedUrl_signature]
    unfold verifySignedUrl
    rw [if_neg hexp]
    simp
  · intro f2 hne
    rw [generateSignedUrl_expires, generateSignedUrl_signature] at hne ⊢
    exact verify_false_of_ne _ _ _ _ _ (Ne.symm hne)
  · intro e2 hne
    rw [generateSignedUrl_signature] at hne ⊢
    exact verify_false_of_ne _ _ _ _ _ (Ne.symm hne)
  · intro s2 hne
    rw [generateSignedUrl_signature] at hne
    rw [generateSignedUrl_expires]
    exact verify_false_of_ne _ _ _ _ _ hne

/-- C5, counterexample: a matching `If-None-Match` yields a 304 with empty
body, but the response carries a `Content-Type` header (set
unconditionally before the conditional check, src/edge/routes/cdn.js line
107), contradicting the claim that the 304 has no content headers beyond
the validators. -/
theorem C5_counterexample :
    (serveContent ⟨true, true⟩ (fun _ => none) id id
      { content := [104, 105],
        metadata := { contentType := "text/plain", etag := some "\"abc\"",
                      lastModified := none, contentLength := none,
                      cacheControl := "public" } }
      { ifNoneMatch := some "\"abc\"", ifModifiedSince := none, range := none,
        acceptEncoding := none })
    = { status := 304,
        headers := [("Content-Type", "text/plain"), ("Cache-Control", "public"),
                    ("X-Cache", "HIT"), ("ETag", "\"abc\"")],
        body := .empty }
    ∧ ("Content-Type", "text/plain") ∈
      (serveContent ⟨true, true⟩ (fun _ => none) id id
        { content := [104, 105],
          metadata := { contentType := "text/plain", etag := some "\"abc\"",
                        lastModified := none, contentLength := none,
                        cacheControl := "public" } }
        { ifNoneMatch := some "\"abc\"", ifModifiedSince := none, range := none,
          acceptEncoding := none }).headers := by
  constructor
  · decide
  · decide

/-- C5, amended: a byte-for-byte `If-None-Match` match with the entry ETag,
or an `If-Modified-Since` parsing to a time at or after the parsed entry
`Last-Modified` (regardless of any present, even non-matching,
`If-None-Match`: both conditional branches build the identical response),
yields a 304 with an empty body whose headers are exactly the validators
plus the unconditionally set `Content-Type`, `Cache-Control` and
`X-Cache: HIT` (no `Content-Length`, `Content-Encoding` or
`Content-Range`). -/
theorem C5_conditional_304 (cfg : CompressionConfig) (parseDate : String → Option Int)
    (cBr cGz : List Nat → List Nat) (entry : CacheEntry) (req : Request) :
    (jsTruthy entry.metadata.etag = true → req.ifNoneMatch = entry.metadata.etag →
      serveContent cfg parseDate cBr cGz entry req =
        { status := 304, headers := baseHeaders entry.metadata, body := .empty }) ∧
    (jsTruthy req.ifModifiedSince = true →
      jsTruthy entry.metadata.lastModified = true →
      nanLe (parseDate (entry.metadata.lastModified.getD ""))
          (parseDate (req.ifModifiedSince.getD "")) = true →
      serveContent cfg parseDate cBr cGz entry req =
        { status := 304, headers := baseHeaders entry.metadata, body := .empty }) := by
  constructor
  · intro he hm
    simp [serveContent, hm, he]
  · intro hims hl hle
    by_cases c1 : (jsTruthy req.ifNoneMatch && jsTruthy entry.metadata.etag
        && req.ifNoneMatch == entry.metadata.etag) = true
    · simp [serveContent, c1]
    · rw [Bool.not_eq_true] at c1
      simp [serveContent, c1, hims, hl, hle]

/-- C5 witness: a matching ETag, a timestamp comparison without any
If-None-Match, and a present but non-matching If-None-Match alongside a
satisfying If-Modified-Since (dates parsed by an explicit concrete parser)
all produce the bodyless 304. -/
theorem C5_conditional_304_witness :
    (serveContent ⟨true, true⟩ (fun _ => none) id id entryWithEtag
      { ifNoneMatch := some "\"e1\"", ifModifiedSince := none, range := none,
        acceptEncoding := none }
      = { status := 304, headers := baseHeaders entryWithEtag.metadata, body := .empty }) ∧
    (serveContent ⟨true, true⟩ twoDateParser id id entryWithLastModified
      { ifNoneMatch := none, ifModifiedSince := some "mon", range := none,
        acceptEncoding := none }
      = { status := 304, headers := baseHeaders entryWithLastModified.metadata,
          body := .empty }) ∧
    (serveContent ⟨true, true⟩ twoDateParser id id entryWithBothValidators
      { ifNoneMatch := some "\"other\"", ifModifiedSince := some "mon", range := none,
        acceptEncoding := none }
      = { status := 304, headers := baseHeaders entryWithBothValidators.metadata,
          body := .empty }) := by
  refine ⟨?_, ?_, ?_⟩
  · exact (C5_conditional_304 ⟨true, true⟩ (fun _ => none) id id entryWithEtag
      { ifNoneMatch := some "\"e1\"", ifModifiedSince := none, range := none,
        acceptEncoding := none }).1 (by decide) (by decide)
  · exact (C5_conditional_304 ⟨true, true⟩ twoDateParser id id entryWithLastModified
      { ifNoneMatch := none, ifModifiedSince := some "mon", range := none,
        acceptEncoding := none }).2 (by decide) (by decide) (by decide)
  · exact (C5_conditional_304 ⟨true, true⟩ twoDateParser id id entryWithBothValidators
      { ifNoneMatch := some "\"other\"", ifModifiedSince := some "mon", range := none,
        acceptEncoding := none }).2 (by decide) (by decide) (by decide)

/-- C6, counterexample: the claim says start and end are clamped to valid
bounds and the headers and body reflect the clamped values.  They are not
clamped: for a ten-byte entity and `Range: bytes=0-99` the route sends
`Content-Range: bytes 0-99/10` (the claim, with end clamped to 9, requires
`bytes 0-9/10`) and `Content-Length: 100`, while the body is the ten bytes
that `Buffer.slice` implicitly clamps to. -/
theorem C6_counterexample :
    (serveContent ⟨true, true⟩ (fun _ => none) id id tenByteEntry
      { ifNoneMatch := none, ifModifiedSince := none, range := some "bytes=0-99",
        acceptEncoding := none })
    = { status := 206,
        headers := baseHeaders tenByteEntry.metadata ++
          [("Content-Range", "bytes 0-99/10"), ("Accept-Ranges", "bytes"),
           ("Content-Length", "100")],
        body := .bytes [0, 1, 2, 3, 4, 5, 6, 7, 8, 9] }
    ∧ ("bytes 0-99/10" : String) ≠ "bytes 0-9/10"
    ∧ ("100" : String) ≠ "10" := by
  refine ⟨by decide, by decide, by decide⟩

/-- C6, amended: for a `Range: bytes=start-end` request whose parsed bounds
are within the entity (no clamping is performed by the code; in-bounds
values make it unobservable), the response is 206 with
`Content-Range: bytes start-end/total`, `Accept-Ranges: bytes`,
`Content-Length` of end - start + 1, and exactly the inclusive byte slice
as body; an omitted or empty end part defaults to length - 1. -/
theorem C6_range_request (cfg : CompressionConfig) (parseDate : String → Option Int)
    (cBr cGz : List Nat → List Nat) (entry : CacheEntry) (req : Request)
    (rs : String) (s e : Int)
    (hn : jsTruthy req.ifNoneMatch = false)
    (hi : jsTruthy req.ifModifiedSince = false)
    (hr : req.range = some rs) (hrne : rs ≠ "")
    (hp : parseRange rs entry.content.length = (some s, some e))
    (hs0 : 0 ≤ s) (hse : s ≤ e) (hen : e < (entry.content.length : Int)) :
    (serveContent cfg parseDate cBr cGz entry req =
      { status := 206,
        headers := baseHeaders entry.metadata ++
          [("Content-Range", "bytes " ++ toString s ++ "-" ++ toString e ++ "/"
              ++ toString entry.content.length),
           ("Accept-Ranges", "bytes"),
           ("Content-Length", toString (e - s + 1))],
        body := .bytes ((entry.content.take (e + 1).toNat).drop s.toNat) }) ∧
    (∀ (rs2 : String) (len : Nat),
      (jsSplit (removeFirst rs2 "bytes=") '-').getD 1 "" = "" →
      (parseRange rs2 len).2 = some ((len : Int) - 1)) := by
  have hjr2 : jsTruthy (some rs) = true := by simp [jsTruthy, hrne]
  have hsa : sliceIndex entry.content.length (some s) = s.toNat := by
    simp only [sliceIndex]
    rw [if_neg (by omega)]
    exact min_eq_left (by omega)
  have hea : sliceIndex entry.content.length (some (e + 1)) = (e + 1).toNat := by
    simp only [sliceIndex]
    rw [if_neg (by omega)]
    exact min_eq_left (by omega)
  constructor
  · simp [serveContent, hn, hi, hr, hjr2, hp, optAdd, optSub, numStr,
      bufSlice, hsa, hea]
  · intro rs2 len h1e
    simp only [parseRange]
    rw [h1e]
    simp

/-- C6 witness: `bytes=2-5` and the open-ended `bytes=3-` on the ten-byte
entity. -/
theorem C6_range_request_witness :
    (serveContent ⟨true, true⟩ (fun _ => none) id id tenByteEntry
      { ifNoneMatch := none, ifModifiedSince := none, range := some "bytes=2-5",
        acceptEncoding := none }
      = { status := 206,
          headers := baseHeaders tenByteEntry.metadata ++
            [("Content-Range", "bytes 2-5/10"), ("Accept-Ranges", "bytes"),
             ("Content-Length", "4")],
          body := .bytes [2, 3, 4, 5] }) ∧
    (serveContent ⟨true, true⟩ (fun _ => none) id id tenByteEntry
      { ifNoneMatch := none, ifModifiedSince := none, range := some "bytes=3-",
        acceptEncoding := none }
      = { status := 206,
          headers := baseHeaders tenByteEntry.metadata ++
            [("Content-Range", "bytes 3-9/10"), ("Accept-Ranges", "bytes"),
             ("Content-Length", "7")],
          body := .bytes [3, 4, 5, 6, 7, 8, 9] }) := by
  constructor
  · have h := (C6_range_request ⟨true, true⟩ (fun _ => none) id id tenByteEntry
      { ifNoneMatch := none, ifModifiedSince := none, range := some "bytes=2-5",
        acceptEncoding := none }
      "bytes=2-5" 2 5 (by decide) (by decide) rfl (by decide) (by decide)
      (by decide) (by decide) (by decide)).1
    exact h.trans (by decide)
  · have h := (C6_range_request ⟨true, true⟩ (fun _ => none) id id tenByteEntry
      { ifNoneMatch := none, ifModifiedSince := none, range := some "bytes=3-",
        acceptEncoding := none }
      "bytes=3-" 3 9 (by decide) (by decide) rfl (by decide) (by decide)
      (by decide) (by decide) (by decide)).1
    exact h.trans (by decide)

/-- C7: with the default compression configuration (both flags on), a
full-entity response is compressed only for content types on the fixed
allow-list; brotli wins over gzip whenever `Accept-Encoding` contains
`br` (gzip is used only when `br` is absent and `gzip` present), identity
otherwise; and a range (206) response never carries `Content-Encoding`. -/
theorem C7_compression_negotiation (parseDate : String → Option Int)
    (cBr cGz : List Nat → List Nat) (entry : CacheEntry) (req : Request)
    (hn : jsTruthy req.ifNoneMatch = false)
    (hi : jsTruthy req.ifModifiedSince = false) :
    (jsTruthy req.range = false →
      isCompressibleType entry.metadata.contentType = false →
      findHeader (serveContent ⟨true, true⟩ parseDate cBr cGz entry req)
          "Content-Encoding" = none ∧
      (serveContent ⟨true, true⟩ parseDate cBr cGz entry req).body
          = .bytes entry.content) ∧
    (jsTruthy req.range = false →
      isCompressibleType entry.metadata.contentType = true →
      jsIncludes (req.acceptEncoding.getD "") "br" = true →
      findHeader (serveContent ⟨true, true⟩ parseDate cBr cGz entry req)
          "Content-Encoding" = some "br" ∧
      (serveContent ⟨true, true⟩ parseDate cBr cGz entry req).body
          = .bytes (cBr entry.content)) ∧
    (jsTruthy req.range = false →
      isCompressibleType entry.metadata.contentType = true →
      jsIncludes (req.acceptEncoding.getD "") "br" = false →
      jsIncludes (req.acceptEncoding.getD "") "gzip" = true →
      findHeader (serveContent ⟨true, true⟩ parseDate cBr cGz entry req)
          "Content-Encoding" = some "gzip" ∧
      (serveContent ⟨true, true⟩ parseDate cBr cGz entry req).body
          = .bytes (cGz entry.content)) ∧
    (jsTruthy req.range = false →
      isCompressibleType entry.metadata.contentType = true →
      jsIncludes (req.acceptEncoding.getD "") "br" = false →
      jsIncludes (req.acceptEncoding.getD "") "gzip" = false →
      findHeader (serveContent ⟨true, true⟩ parseDate cBr cGz entry req)
          "Content-Encoding" = none ∧
      (serveContent ⟨true, true⟩ parseDate cBr cGz entry req).body
          = .bytes entry.content) ∧
    (jsTruthy req.range = true →
      findHeader (serveContent ⟨true, true⟩ parseDate cBr cGz entry req)
          "Content-Encoding" = none) := by
  refine ⟨?_, ?_, ?_, ?_, ?_⟩
  · intro hr hc
    constructor <;>
      simp [serveContent, hn, hi, hr, hc, findHeader, List.find?_append,
        baseHeaders_no_contentEncoding, List.find?_cons]
  · intro hr hc hbr
    constructor <;>
      simp [serveContent, hn, hi, hr, hc, hbr, findHeader, List.find?_append,
        baseHeaders_no_contentEncoding, List.find?_cons]
  · intro hr hc hbr hgz
    constructor <;>
      simp [serveContent, hn, hi, hr, hc, hbr, hgz, findHeader, List.find?_append,
        baseHeaders_no_contentEncoding, List.find?_cons]
  · intro hr hc hbr hgz
    constructor <;>
      simp [serveContent, hn, hi, hr, hc, hbr, hgz, findHeader, List.find?_append,
        baseHeaders_no_contentEncoding, List.find?_cons]
  · intro hr
    simp [serveContent, hn, hi, hr, findHeader, List.find?_append,
      baseHeaders_no_contentEncoding, List.find?_cons]

/-- C7 witness: a compressible entry with `Accept-Encoding: br, gzip`
gets brotli; the same with only gzip gets gzip; with no Accept-Encoding it
is identity; an image entry is never encoded; a range request is never
encoded. -/
theorem C7_compression_negotiation_witness :
    (findHeader (serveContent ⟨true, true⟩ (fun _ => none) id id entryWithEtag
        { ifNoneMatch := none, ifModifiedSince := none, range := none,
          acceptEncoding := some "br, gzip" }) "Content-Encoding" = some "br") ∧
    (findHeader (serveContent ⟨true, true⟩ (fun _ => none) id id entryWithEtag
        { ifNoneMatch := none, ifModifiedSince := none, range := none,
          acceptEncoding := some "gzip" }) "Content-Encoding" = some "gzip") ∧
    (findHeader (serveContent ⟨true, true⟩ (fun _ => none) id id entryWithEtag
        { ifNoneMatch := none, ifModifiedSince := none, range := none,
          acceptEncoding := none }) "Content-Encoding" = none) ∧
    (findHeader (serveContent ⟨true, true⟩ (fun _ => none) id id tenByteEntry
        { ifNoneMatch := none, ifModifiedSince := none, range := none,
          acceptEncoding := some "br, gzip" }) "Content-Encoding" = none) ∧
    (findHeader (serveContent ⟨true, true⟩ (fun _ => none) id id tenByteEntry
        { ifNoneMatch := none, ifModifiedSince := none, range := some "bytes=0-3",
          acceptEncoding := some "br, gzip" }) "Content-Encoding" = none) := by
  refine ⟨?_, ?_, ?_, ?_, ?_⟩
  · exact ((C7_compression_negotiation (fun _ => none) id id entryWithEtag
      { ifNoneMatch := none, ifModifiedSince := none, range := none,
        acceptEncoding := some "br, gzip" } (by decide) (by decide)).2.1
      (by decide) (by decide) (by decide)).1
  · exact ((C7_compression_negotiation (fun _ => none) id id entryWithEtag
      { ifNoneMatch := none, ifModifiedSince := none, range := none,
        acceptEncoding := some "gzip" } (by decide) (by decide)).2.2.1
      (by decide) (by decide) (by decide) (by decide)).1
  · exact ((C7_compression_negotiation (fun _ => none) id id entryWithEtag
      { ifNoneMatch := none, ifModifiedSince := none, range := none,
        acceptEncoding := none } (by decide) (by decide)).2.2.2.1
      (by decide) (by decide) (by decide) (by decide)).1
  · exact ((C7_compression_negotiation (fun _ => none) id id tenByteEntry
      { ifNoneMatch := none, ifModifiedSince := none, range := none,
        acceptEncoding := some "br, gzip" } (by decide) (by decide)).1
      (by decide) (by decide)).1
  · exact (C7_compression_negotiation (fun _ => none) id id tenByteEntry
      { ifNoneMatch := none, ifModifiedSince := none, range := some "bytes=0-3",
        acceptEncoding := some "br, gzip" } (by decide) (by decide)).2.2.2.2
      (by decide)

/-- C8, code-bug evidence: `serveContent` sets `X-Cache: HIT`
unconditionally (src/edge/routes/cdn.js line 109) and is also the
assembler for the miss path, so a response freshly fetched from the origin
carries `X-Cache: HIT` too.  Here the cache is empty (the same lookup the
route performs returns nothing, so the request is a miss that performs an
origin fetch), yet the assembled response carries `X-Cache: HIT`,
contradicting the claim and the route's own `Cache MISS` log line for the
same request. -/
theorem C8_hit_header_on_origin_fetch :
    (getFromCache (initCache CacheEntry true 100) (generateCacheKeyDefault "pic.png")).1
      = none ∧
    findHeader (cdnGet ⟨true, true⟩ (fun _ => none) id id (fun _ _ _ => false) none
        (fun _ => .ok tenByteEntry) "pic.png" none none
        { ifNoneMatch := none, ifModifiedSince := none, range := none,
          acceptEncoding := none }
        (initCache CacheEntry true 100)).response "X-Cache" = some "HIT" := by
  exact ⟨by decide, by decide⟩

/-- C9: on a cache miss (the route's lookup returns nothing) with the
signature check passing, the pipeline fetches content by the
caller-supplied identifier whenever the metadata fetch failed; a rejected
fetch with status 404 terminates as 404 with a structured error body, any
other rejection as 502 with a structured error body; and a successful
fetch stores the entry in the cache under the lookup key and assembles the
response from that same entry. -/
theorem C9_miss_pipeline (cfg : CompressionConfig) (parseDate : String → Option Int)
    (cBr cGz : List Nat → List Nat) (verify : String → Option Int → String → Bool)
    (metaResult : Option String) (fetchContent : String → FetchOutcome)
    (fileId : String) (expires signature : Option String) (req : Request)
    (cache : Option (LRU CacheEntry))
    (hauth : authCheck verify fileId expires signature = none)
    (hmiss : (getFromCache cache (generateCacheKeyDefault fileId)).1 = none) :
    (metaResult = none → metaResult.getD fileId = fileId) ∧
    (∀ entry, fetchContent (metaResult.getD fileId) = .ok entry →
      (cdnGet cfg parseDate cBr cGz verify metaResult fetchContent fileId expires
          signature req cache).cache
        = setInCache cache (generateCacheKeyDefault fileId) entry ∧
      (cdnGet cfg parseDate cBr cGz verify metaResult fetchContent fileId expires
          signature req cache).response
        = serveContent cfg parseDate cBr cGz entry req) ∧
    (fetchContent (metaResult.getD fileId) = .httpError 404 →
      (cdnGet cfg parseDate cBr cGz verify metaResult fetchContent fileId expires
          signature req cache).response
        = { status := 404, headers := [], body := .jsonError "File not found" }) ∧
    (∀ s, s ≠ 404 → fetchContent (metaResult.getD fileId) = .httpError s →
      (cdnGet cfg parseDate cBr cGz verify metaResult fetchContent fileId expires
          signature req cache).response
        = { status := 502, headers := [],
            body := .jsonError "Failed to fetch from origin" }) ∧
    (fetchContent (metaResult.getD fileId) = .networkError →
      (cdnGet cfg parseDate cBr cGz verify metaResult fetchContent fileId expires
          signature req cache).response
        = { status := 502, headers := [],
            body := .jsonError "Failed to fetch from origin" }) := by
  have hcache2 := getFromCache_miss cache (generateCacheKeyDefault fileId) hmiss
  cases metaResult with
  | none =>
    refine ⟨fun _ => rfl, ?_, ?_, ?_, ?_⟩
    · intro entry hf
      simp only [Option.getD_none] at hf
      constructor <;> simp [cdnGet, hauth, hmiss, hf, hcache2]
    · intro hf
      simp only [Option.getD_none] at hf
      simp [cdnGet, hauth, hmiss, hf]
    · intro s hs hf
      simp only [Option.getD_none] at hf
      have hbeq : (s == 404) = false := by simp [hs]
      simp [cdnGet, hauth, hmiss, hf, hbeq]
    · intro hf
      simp only [Option.getD_none] at hf
      simp [cdnGet, hauth, hmiss, hf]
  | some mid =>
    refine ⟨fun hm => by simp at hm, ?_, ?_, ?_, ?_⟩
    · intro entry hf
      simp only [Option.getD_some] at hf
      constructor <;> simp [cdnGet, hauth, hmiss, hf, hcache2]
    · intro hf
      simp only [Option.getD_some] at hf
      simp [cdnGet, hauth, hmiss, hf]
    · intro s hs hf
      simp only [Option.getD_some] at hf
      have hbeq : (s == 404) = false := by simp [hs]
      simp [cdnGet, hauth, hmiss, hf, hbeq]
    · intro hf
      simp only [Option.getD_some] at hf
      simp [cdnGet, hauth, hmiss, hf]

/-- C9 witness: a metadata-fetch failure followed by a 404 rejection gives
the 404 error response; a successful fetch stores the entry under the
lookup key. -/
theorem C9_miss_pipeline_witness :
    (cdnGet ⟨true, true⟩ (fun _ => none) id id (fun _ _ _ => false) none
        (fun _ => .httpError 404) "f" none none
        { ifNoneMatch := none, ifModifiedSince := none, range := none,
          acceptEncoding := none } none).response
      = { status := 404, headers := [], body := .jsonError "File not found" } ∧
    (cdnGet ⟨true, true⟩ (fun _ => none) id id (fun _ _ _ => false) none
        (fun _ => .ok tenByteEntry) "f" none none
        { ifNoneMatch := none, ifModifiedSince := none, range := none,
          acceptEncoding := none } (initCache CacheEntry true 2)).cache
      = setInCache (initCache CacheEntry true 2) (generateCacheKeyDefault "f")
          tenByteEntry := by
  constructor
  · exact (C9_miss_pipeline ⟨true, true⟩ (fun _ => none) id id (fun _ _ _ => false)
      none (fun _ => .httpError 404) "f" none none
      { ifNoneMatch := none, ifModifiedSince := none, range := none,
        acceptEncoding := none } none (by decide) (by decide)).2.2.1 rfl
  · exact ((C9_miss_pipeline ⟨true, true⟩ (fun _ => none) id id (fun _ _ _ => false)
      none (fun _ => .ok tenByteEntry) "f" none none
      { ifNoneMatch := none, ifModifiedSince := none, range := none,
        acceptEncoding := none } (initCache CacheEntry true 2) (by decide)
      (by decide)).2.1 tenByteEntry rfl).1

/-- C10: when the `expires` or `signature` query parameter is missing or
empty, the route performs no signature verification at all — the request
result is identical for any two verifier functions and equal to that of a
bare public request with neither parameter; verification runs only when
both parameters are present and non-empty, in which case its outcome alone
decides between proceeding and the 403 error. -/
theorem C10_auth_only_when_both_present (cfg : CompressionConfig)
    (parseDate : String → Option Int) (cBr cGz : List Nat → List Nat)
    (v1 v2 : String → Option Int → String → Bool)
    (metaResult : Option String) (fetchContent : String → FetchOutcome)
    (fileId : String) (expires signature : Option String)
    (req : Request) (cache : Option (LRU CacheEntry)) :
    ((jsTruthy expires && jsTruthy signature) = false →
      cdnGet cfg parseDate cBr cGz v1 metaResult fetchContent fileId expires signature
          req cache
        = cdnGet cfg parseDate cBr cGz v2 metaResult fetchContent fileId none none
            req cache) ∧
    ((jsTruthy expires && jsTruthy signature) = true →
      authCheck v1 fileId expires signature
        = (if v1 fileId (jsParseInt (expires.getD "")) (signature.getD "") then none
           else
             some { status := 403, headers := [],
                    body := .jsonError "Invalid or expired signature" })) := by
  constructor
  · intro h
    unfold cdnGet
    rw [show authCheck v1 fileId expires signature = none by simp [authCheck, h],
      show authCheck v2 fileId none none = none by simp [authCheck, jsTruthy]]
  · intro h
    simp [authCheck, h]

/-- C10 witness: with only `expires` present the route result equals the
public-request result for two verifiers that disagree everywhere; with
both present the auth step reduces to the verifier's verdict. -/
theorem C10_auth_only_when_both_present_witness :
    (cdnGet ⟨true, true⟩ (fun _ => none) id id (fun _ _ _ => false) none
        (fun _ => .networkError) "f" (some "123") none
        { ifNoneMatch := none, ifModifiedSince := none, range := none,
          acceptEncoding := none } none
      = cdnGet ⟨true, true⟩ (fun _ => none) id id (fun _ _ _ => true) none
          (fun _ => .networkError) "f" none none
          { ifNoneMatch := none, ifModifiedSince := none, range := none,
            acceptEncoding := none } none) ∧
    (authCheck (fun _ _ _ => false) "f" (some "1") (some "s")
      = (if (fun (_ : String) (_ : Option Int) (_ : String) => false) "f"
            (jsParseInt ((some "1").getD "")) ((some "s").getD "") then none
         else
           some { status := 403, headers := [],
                  body := .jsonError "Invalid or expired signature" })) := by
  constructor
  · exact (C10_auth_only_when_both_present ⟨true, true⟩ (fun _ => none) id id
      (fun _ _ _ => false) (fun _ _ _ => true) none (fun _ => .networkError) "f"
      (some "123") none
      { ifNoneMatch := none, ifModifiedSince := none, range := none,
        acceptEncoding := none } none).1 (by decide)
  · exact (C10_auth_only_when_both_present ⟨true, true⟩ (fun _ => none) id id
      (fun _ _ _ => false) (fun _ _ _ => true) none (fun _ => .networkError) "f"
      (some "1") (some "s")
      { ifNoneMatch := none, ifModifiedSince := none, range := none,
        acceptEncoding := none } none).2 (by decide)

/-- C3 witness: identity digest, clock 100, fileId f, ttl 50; the signed
token is (f, 150, f:150), the round trip verifies, and tampering with any
one component falsifies verification. -/
theorem C3_roundtrip_and_tamper_witness :
    verifySignedUrl (fun s => s) 100 "f" 150 "f:150" = true ∧
    verifySignedUrl (fun s => s) 100 "g" 150 "f:150" = false ∧
    verifySignedUrl (fun s => s) 100 "f" 151 "f:150" = false ∧
    verifySignedUrl (fun s => s) 100 "f" 150 "zzz" = false := by
  have h := C3_roundtrip_and_tamper (fun s => s) 100 "f" 50 (by decide)
  exact ⟨h.1, h.2.1 "g" (by decide), h.2.2.1 151 (by decide), h.2.2.2 "zzz" (by decide)⟩

end CdnServer
